import Mathlib

/- Verification of the core module (src/core.ts) of the ai-switch CLI.

   The definitions below are a shallow embedding of the TypeScript source.
   JavaScript runtime behaviour is modelled faithfully where it is
   observable through the exported functions:
   - the JS `in` operator walks the prototype chain, so `key in TOOLS`
     also accepts the property names inherited from Object.prototype;
   - JS string truthiness: undefined, null and the empty string are falsy;
   - the quote-replacement literal in quoteArg denotes three quote
     characters, because a backslash-quote inside a double-quoted JS
     string is an escape for a plain quote;
   - file reads and JSON parsing are modelled by an explicit source datum
     (file absent / read-or-parse failure / parsed document), and calls to
     the optional logger are collected in an output list of warnings. -/

/-- Json values as produced by JSON.parse. Numeric literals are modelled as
integers; no behaviour checked here depends on non-integral numbers. -/
inductive Json where
  | null : Json
  | bool (b : Bool) : Json
  | num (n : Int) : Json
  | str (s : String) : Json
  | arr (items : List Json) : Json
  | obj (fields : List (String × Json)) : Json

/-- Installer record from core.ts: a labelled install command plus an
optional platform list (absent means applicable everywhere). -/
structure Installer where
  label : String
  cmd : String
  platforms : Option (List String)

/-- ToolDefinition record from core.ts. -/
structure ToolDefinition where
  bin : String
  pretty : String
  installers : List Installer
  yoloFlags : Option (List String)

/-- Prompt choice produced by getInstallerChoices. -/
structure Choice where
  name : String
  value : String
  deriving DecidableEq

/-- AiSwitchConfig from core.ts. A field that the source never sets is
modelled as none; the code never stores null or a default value. -/
structure AiSwitchConfig where
  defaultTool : Option String
  defaultFlags : Option (List String)

/-- Ambient environment consulted by isWSL: the value of process.platform,
whether the WSL_DISTRO_NAME environment variable is present, and the
content of /proc/version when that file is readable. -/
structure Env where
  platform : String
  hasWslDistroName : Bool
  procVersion : Option String

/-- Outcome of the file system and JSON.parse steps of loadConfig:
the config file is absent, or reading/parsing threw (the caught error
message is carried), or parsing produced a JSON object document.
A successfully parsed non-object, non-null document behaves exactly like
an object with no fields (every property access yields undefined), and a
parsed null throws on property access, which the same catch block turns
into a failure, so those cases are covered by the constructors below. -/
inductive ConfigSource where
  | absent : ConfigSource
  | failure (message : String) : ConfigSource
  | parsed (doc : List (String × Json)) : ConfigSource

namespace TOOLS

/-- codex entry of the TOOLS catalog (core.ts). -/
def codex : ToolDefinition :=
  ⟨"codex", "OpenAI Codex CLI",
   [⟨"npm", "npm install -g @openai/codex", none⟩,
    ⟨"brew", "brew install codex", some ["darwin"]⟩],
   some ["--yolo", "--dangerously-bypass-approvals-and-sandbox"]⟩

/-- claude entry of the TOOLS catalog (core.ts). -/
def claude : ToolDefinition :=
  ⟨"claude", "Anthropic Claude Code",
   [⟨"npm", "npm install -g @anthropic-ai/claude-code", none⟩,
    ⟨"brew", "brew install --cask claude-code", some ["darwin"]⟩],
   some ["--dangerously-skip-permissions"]⟩

/-- gemini entry of the TOOLS catalog (core.ts). -/
def gemini : ToolDefinition :=
  ⟨"gemini", "Google Gemini CLI",
   [⟨"npm", "npm install -g @google/gemini-cli", none⟩,
    ⟨"brew", "brew install gemini-cli", some ["darwin"]⟩],
   some ["--yolomode", "--yolo"]⟩

end TOOLS

/-- own enumerable keys of the TOOLS object literal, in declaration order. -/
def toolsOwnKeys : List String := ["codex", "claude", "gemini"]

/-- property names of Object.prototype. The TOOLS object literal inherits
these, and the JS `in` operator checks the prototype chain as well as own
properties, so `key in TOOLS` is also true for each of these names. -/
def objectPrototypeProps : List String :=
  ["constructor", "hasOwnProperty", "isPrototypeOf", "propertyIsEnumerable",
   "toLocaleString", "toString", "valueOf", "__defineGetter__",
   "__defineSetter__", "__lookupGetter__", "__lookupSetter__", "__proto__"]

/-- the membership test `key in TOOLS` used by normalizeToolKey. -/
def keyInTools (key : String) : Bool :=
  toolsOwnKeys.contains key || objectPrototypeProps.contains key

/-- ASCII lower-casing, modelling String.prototype.toLowerCase; all catalog
keys are ASCII, so the exotic Unicode cases of toLowerCase are not
observable through the membership test. -/
def jsToLowerCase (s : String) : String := String.mk (s.data.map Char.toLower)

/-- normalizeToolKey (core.ts). The Option input models an optional
string-or-null parameter: none stands for both undefined and null, and the
guard mirrors `if (!value)`, which is also taken for the empty string. -/
def normalizeToolKey (value : Option String) : Option String :=
  match value with
  | none => none
  | some s =>
    if s == "" then none
    else
      let key := jsToLowerCase s
      if keyInTools key then some key else none

/-- front-of-list match: true when hay starts with needle. -/
def leadMatch : List Char → List Char → Bool
  | [], _ => true
  | _ :: _, [] => false
  | a :: as, b :: bs => a == b && leadMatch as bs

/-- substring occurrence test on character lists. -/
def hasSubL (needle : List Char) : List Char → Bool
  | [] => leadMatch needle []
  | b :: rest => leadMatch needle (b :: rest) || hasSubL needle rest

/-- String.prototype.includes. -/
def hasSub (hay needle : String) : Bool := hasSubL needle.data hay.data

/-- isWSL (core.ts): false unless process.platform is linux; then true when
WSL_DISTRO_NAME is in the environment; otherwise /proc/version is read and
searched (lower-cased) for the word microsoft, an unreadable file giving
false via the catch block. -/
def isWSL (env : Env) : Bool :=
  if env.platform != "linux" then false
  else if env.hasWslDistroName then true
  else
    match env.procVersion with
    | some release => hasSub (jsToLowerCase release) "microsoft"
    | none => false

/-- isInstallerSupported (core.ts). The platform parameter is the explicit
argument (its call-site default os.platform() is an ambient query made by
the caller, outside this function body). -/
def isInstallerSupported (env : Env) (installer : Installer) (platform : String) : Bool :=
  match installer.platforms with
  | none => true
  | some ps =>
    if ps.isEmpty then true
    else if isWSL env then ps.contains "wsl" || ps.contains "linux"
    else ps.contains platform

/-- the CANCEL_CHOICE sentinel from core.ts. -/
def CANCEL_CHOICE : Choice := ⟨"Cancel", ""⟩

/-- getInstallerChoices (core.ts): filter by isInstallerSupported, map to
display choices, then append the cancel sentinel. -/
def getInstallerChoices (env : Env) (tool : ToolDefinition) (platform : String) : List Choice :=
  (tool.installers.filter fun installer => isInstallerSupported env installer platform).map
    (fun installer => ⟨installer.label ++ ": " ++ installer.cmd, installer.cmd⟩)
    ++ [CANCEL_CHOICE]

/-- selectYoloFlag (core.ts): head of yoloFlags, defaulting the absent list
to the empty one. -/
def selectYoloFlag (tool : ToolDefinition) : Option String :=
  (tool.yoloFlags.getD []).head?

/-- Array.prototype.indexOf specialised to strings: first index of target,
or -1. -/
def jsIndexOfAux (target : String) : List String → Int → Int
  | [], _ => -1
  | a :: rest, i => if a == target then i else jsIndexOfAux target rest (i + 1)

/-- argv.indexOf(target). -/
def jsIndexOf (xs : List String) (target : String) : Int := jsIndexOfAux target xs 0

/-- passthroughArgs (core.ts): slice after the first literal double-dash
token, empty when there is none. -/
def passthroughArgs (argv : List String) : List String :=
  let idx := jsIndexOf argv "--"
  if 0 ≤ idx then argv.drop (idx.toNat + 1) else []

/-- property access parsed[key] on a JSON object document; JSON.parse keeps
the last of duplicate keys, hence getLast?. -/
def getField (doc : List (String × Json)) (key : String) : Option Json :=
  (doc.filterMap fun p => if p.1 == key then some p.2 else none).getLast?

/-- the every-element-is-a-string check plus the verbatim copy performed by
ensureStringArray on an array value. -/
def asStrings : List Json → Option (List String)
  | [] => some []
  | Json.str s :: rest => (asStrings rest).map fun ss => s :: ss
  | _ :: _ => none

/-- ensureStringArray (core.ts): non-arrays (including an absent value)
give undefined; arrays give a copy when every element is a string. -/
def ensureStringArray (value : Option Json) : Option (List String) :=
  match value with
  | some (Json.arr items) => asStrings items
  | _ => none

/-- the maybeTool local of loadConfig: parsed.defaultTool when it is a
string, otherwise undefined. -/
def maybeToolOf (doc : List (String × Json)) : Option String :=
  match getField doc "defaultTool" with
  | some (Json.str s) => some s
  | _ => none

/-- warnings emitted by the defaultTool branch of loadConfig: the else-if
guard `else if (maybeTool)` tests JS truthiness of the raw string, so the
empty string produces no warning. -/
def toolWarnsOf (doc : List (String × Json)) : List String :=
  match normalizeToolKey (maybeToolOf doc), maybeToolOf doc with
  | some _, _ => []
  | none, some s => if s == "" then [] else ["Ignoring unknown defaultTool: " ++ s]
  | none, none => []

/-- the flags local of loadConfig. -/
def flagsOf (doc : List (String × Json)) : Option (List String) :=
  ensureStringArray (getField doc "defaultFlags")

/-- warnings emitted by the defaultFlags branch of loadConfig: the guard
`else if (parsed.defaultFlags !== undefined)` is field presence. -/
def flagsWarnsOf (doc : List (String × Json)) : List String :=
  match flagsOf doc with
  | some _ => []
  | none =>
    if (getField doc "defaultFlags").isSome then
      ["Ignoring defaultFlags because it is not an array of strings."]
    else []

/-- body of the try block of loadConfig on a parsed document: the result
config and the warn calls in emission order (defaultTool first). -/
def loadConfigParsed (doc : List (String × Json)) : AiSwitchConfig × List String :=
  (⟨normalizeToolKey (maybeToolOf doc), flagsOf doc⟩, toolWarnsOf doc ++ flagsWarnsOf doc)

/-- CONFIG_FILENAME constant from core.ts. -/
def CONFIG_FILENAME : String := ".ai-switch.json"

/-- loadConfig (core.ts), over an explicit ConfigSource; the second
component collects the messages passed to the optional logger, in order.
The function is total: no source value makes it raise. -/
def loadConfig (source : ConfigSource) : AiSwitchConfig × List String :=
  match source with
  | ConfigSource.absent => (⟨none, none⟩, [])
  | ConfigSource.failure msg =>
    (⟨none, none⟩, ["Failed to load " ++ CONFIG_FILENAME ++ ": " ++ msg])
  | ConfigSource.parsed doc => loadConfigParsed doc

/-- the single-quote character (ASCII 39). -/
def squote : Char := Char.ofNat 39

/-- the single-quote character as a one-character string. -/
def sqs : String := String.mk [squote]

/-- membership in the SAFE_CHARS character class of core.ts. -/
def isSafeChar (c : Char) : Bool :=
  (Char.ofNat 65 ≤ c && c ≤ Char.ofNat 90) ||
  (Char.ofNat 97 ≤ c && c ≤ Char.ofNat 122) ||
  (Char.ofNat 48 ≤ c && c ≤ Char.ofNat 57) ||
  c == Char.ofNat 46 || c == Char.ofNat 95 || c == Char.ofNat 64 ||
  c == Char.ofNat 37 || c == Char.ofNat 43 || c == Char.ofNat 61 ||
  c == Char.ofNat 58 || c == Char.ofNat 44 || c == Char.ofNat 47 ||
  c == Char.ofNat 45

/-- SAFE_CHARS.test: the anchored regex accepts exactly the non-empty
strings all of whose characters are in the class. -/
def safeTest (s : String) : Bool := s != "" && s.data.all isSafeChar

/-- global single-character regex replacement: every single-quote character
is replaced by the character list rep. -/
def replaceQuoteChars (rep : List Char) : List Char → List Char
  | [] => []
  | c :: rest => (if c == squote then rep else [c]) ++ replaceQuoteChars rep rest

/-- the replacement string on the quoteArg line of core.ts: the JS literal
consists of quote, backslash-quote, quote, and inside a double-quoted JS
string backslash-quote is an escape for a plain quote, so the replacement
is three single-quote characters (no backslash). -/
def jsReplacement : List Char := [squote, squote, squote]

/-- quoteArg (core.ts): empty arg becomes two quotes, safe args pass
through, every other arg is wrapped in quotes with each inner quote
replaced by jsReplacement. -/
def quoteArg (arg : String) : String :=
  if arg == "" then sqs ++ sqs
  else if safeTest arg then arg
  else sqs ++ String.mk (replaceQuoteChars jsReplacement arg.data) ++ sqs

/-- formatShellCommand (core.ts): quote the executable and every arg, join
with single spaces. -/
def formatShellCommand (command : String) (args : List String) : String :=
  String.intercalate " " ((command :: args).map quoteArg)

/-- number of single-quote characters in a string; a word quoted only with
single quotes must contain an even number of them to be a closed POSIX
shell word. -/
def quoteCount (s : String) : Nat := s.data.count squote

/-- Modelled from the spec: the four-character replacement sequence quote,
backslash, quote, quote that the specification prescribes for quoteArg
(close quote, backslash-escaped quote, reopen quote). -/
def specReplacement : List Char := [squote, Char.ofNat 92, squote, squote]

/-- Modelled from the spec: quoteArg as the specification describes it,
differing from the source only in the replacement sequence. -/
def specQuoteArg (arg : String) : String :=
  if arg == "" then sqs ++ sqs
  else if safeTest arg then arg
  else sqs ++ String.mk (replaceQuoteChars specReplacement arg.data) ++ sqs

/-- removal of every binding of a key from a JSON object document; used to
express that a field behaves as if absent. -/
def removeField (doc : List (String × Json)) (key : String) : List (String × Json) :=
  doc.filter fun p => !(p.1 == key)

theorem leadMatch_append (ns t : List Char) : leadMatch ns (ns ++ t) = true := by
  induction ns with
  | nil => rfl
  | cons a as ih => simp [leadMatch, ih]

theorem hasSubL_of_lead {ns hay : List Char} (h : leadMatch ns hay = true) :
    hasSubL ns hay = true := by
  cases hay with
  | nil => exact h
  | cons b rest => simp [hasSubL, h]

theorem hasSubL_cons (ns : List Char) (b : Char) (rest : List Char)
    (h : hasSubL ns rest = true) : hasSubL ns (b :: rest) = true := by
  simp [hasSubL, h]

theorem hasSubL_at (ns t pre : List Char) : hasSubL ns (pre ++ (ns ++ t)) = true := by
  induction pre with
  | nil => exact hasSubL_of_lead (leadMatch_append ns t)
  | cons a as ih => exact hasSubL_cons _ _ _ ih

theorem asStrings_map_str (ss : List String) : asStrings (ss.map Json.str) = some ss := by
  induction ss with
  | nil => rfl
  | cons s rest ih => simp [asStrings, ih]

theorem asStrings_eq_some {xs : List Json} {ss : List String}
    (h : asStrings xs = some ss) : xs = ss.map Json.str := by
  induction xs generalizing ss with
  | nil =>
    simp [asStrings] at h
    simp [← h]
  | cons x rest ih =>
    cases x with
    | str s =>
      simp only [asStrings, Option.map_eq_some'] at h
      obtain ⟨tt, hr, hss⟩ := h
      subst hss
      simp [ih hr]
    | null => simp [asStrings] at h
    | bool b => simp [asStrings] at h
    | num n => simp [asStrings] at h
    | arr items => simp [asStrings] at h
    | obj fields => simp [asStrings] at h

theorem jsIndexOfAux_not_mem (target : String) (xs : List String) (i : Int)
    (h : ¬ target ∈ xs) : jsIndexOfAux target xs i = -1 := by
  induction xs generalizing i with
  | nil => rfl
  | cons a rest ih =>
    simp only [List.mem_cons, not_or] at h
    obtain ⟨h1, h2⟩ := h
    have hbeq : (a == target) = false := beq_eq_false_iff_ne.mpr fun e => h1 e.symm
    simp only [jsIndexOfAux, hbeq, Bool.false_eq_true, if_false]
    exact ih _ h2

theorem jsIndexOfAux_found (target : String) (l r : List String) (i : Int)
    (h : ¬ target ∈ l) : jsIndexOfAux target (l ++ target :: r) i = i + l.length := by
  induction l generalizing i with
  | nil => simp [jsIndexOfAux]
  | cons a rest ih =>
    simp only [List.mem_cons, not_or] at h
    obtain ⟨h1, h2⟩ := h
    have hbeq : (a == target) = false := beq_eq_false_iff_ne.mpr fun e => h1 e.symm
    simp only [List.cons_append, jsIndexOfAux, hbeq, Bool.false_eq_true, if_false,
      List.append_eq]
    rw [ih _ h2]
    simp [List.length_cons]
    omega

theorem passthroughArgs_no_delim (argv : List String) (h : ¬ "--" ∈ argv) :
    passthroughArgs argv = [] := by
  unfold passthroughArgs jsIndexOf
  rw [jsIndexOfAux_not_mem _ _ _ h]
  rfl

theorem passthroughArgs_delim (l r : List String) (h : ¬ "--" ∈ l) :
    passthroughArgs (l ++ "--" :: r) = r := by
  unfold passthroughArgs jsIndexOf
  rw [jsIndexOfAux_found _ _ _ _ h]
  have h0 : (0 : Int) ≤ 0 + (l.length : Int) := by omega
  rw [if_pos h0]
  have ht : ((0 : Int) + (l.length : Int)).toNat = l.length := by omega
  rw [ht]
  have hsplit : l ++ "--" :: r = (l ++ ["--"]) ++ r := by simp
  rw [hsplit]
  have hlen : l.length + 1 = (l ++ ["--"]).length := by simp
  rw [hlen, List.drop_left]

theorem choices_nonwsl (env : Env) (tool : ToolDefinition) (platform : String)
    (h : isWSL env = false) :
    getInstallerChoices env tool platform =
      (tool.installers.filter fun installer =>
          match installer.platforms with
          | none => true
          | some ps => ps.isEmpty || ps.contains platform).map
        (fun installer => ⟨installer.label ++ ": " ++ installer.cmd, installer.cmd⟩)
      ++ [CANCEL_CHOICE] := by
  unfold getInstallerChoices
  congr 2
  apply List.filter_congr
  intro i _
  unfold isInstallerSupported
  cases hp : i.platforms with
  | none => rfl
  | some ps =>
    simp only [h]
    cases hps : ps.isEmpty <;> simp [hps]

theorem filterMapSel_removeField (doc : List (String × Json)) (k ks : String)
    (h : (ks == k) = false) :
    ((removeField doc k).filterMap fun p => if p.1 == ks then some p.2 else none) =
      doc.filterMap fun p => if p.1 == ks then some p.2 else none := by
  have hne : ks ≠ k := beq_eq_false_iff_ne.mp h
  induction doc with
  | nil => rfl
  | cons p rest ih =>
    cases hpk : (p.1 == k) with
    | true =>
      have hsel : (if p.1 == ks then some p.2 else none) = none := by
        have hf : (p.1 == ks) = false := by
          apply beq_eq_false_iff_ne.mpr
          rw [beq_iff_eq.mp hpk]
          exact fun e => hne e.symm
        simp [hf]
      have e1 : removeField (p :: rest) k = removeField rest k := by
        simp [removeField, List.filter_cons, hpk]
      rw [e1, ih]
      simp only [List.filterMap_cons]
      rw [hsel]
    | false =>
      have e1 : removeField (p :: rest) k = p :: removeField rest k := by
        simp [removeField, List.filter_cons, hpk]
      rw [e1]
      simp only [List.filterMap_cons]
      rw [ih]

theorem filterMapSel_removeField_self (doc : List (String × Json)) (k : String) :
    ((removeField doc k).filterMap fun p => if p.1 == k then some p.2 else none) = [] := by
  induction doc with
  | nil => rfl
  | cons p rest ih =>
    cases hpk : (p.1 == k) with
    | true =>
      have ih2 := ih
      simp only [removeField] at ih2 ⊢
      simp [List.filter_cons, hpk, ih2]
    | false =>
      have ih2 := ih
      simp only [removeField] at ih2 ⊢
      simp [List.filter_cons, hpk, List.filterMap_cons, beq_eq_false_iff_ne.mp hpk, ih2]

theorem getField_removeField_ne (doc : List (String × Json)) (k ks : String)
    (h : (ks == k) = false) :
    getField (removeField doc k) ks = getField doc ks := by
  unfold getField
  rw [filterMapSel_removeField doc k ks h]

theorem getField_removeField_self (doc : List (String × Json)) (k : String) :
    getField (removeField doc k) k = none := by
  unfold getField
  rw [filterMapSel_removeField_self doc k]
  rfl

/-- C2: falsified by the code. The claim says any string whose lowercasing
is not one of the three catalog keys yields nothing, but `key in TOOLS`
walks the prototype chain of the TOOLS object literal, so the inherited
Object.prototype property name constructor (and any casing of it) is
accepted and returned even though it is not a catalog key. -/
theorem normalizeToolKey_prototype_leak :
    normalizeToolKey (some "constructor") = some "constructor" ∧
    normalizeToolKey (some "CoNsTrUcToR") = some "constructor" ∧
    toolsOwnKeys.contains "constructor" = false :=
  ⟨rfl, rfl, rfl⟩

/-- C1: falsified by the code. On the document with defaultTool set to the
string constructor, loadConfig returns a config whose defaultTool field is
present but is not one of the canonical catalog keys, because
normalizeToolKey accepts Object.prototype property names. -/
theorem loadConfig_defaultTool_prototype_leak :
    (loadConfig (ConfigSource.parsed [("defaultTool", Json.str "constructor")])).1.defaultTool
        = some "constructor" ∧
    toolsOwnKeys.contains "constructor" = false :=
  ⟨rfl, rfl⟩

/-- C3: falsified by the code. The replacement actually performed is three
single-quote characters, not the four-character close-quote,
backslash-escaped-quote, reopen-quote sequence the claim describes: the
output for the argument mix-quote-ed is quote mix quote quote quote ed
quote, which contains five (an odd number of) quote characters and hence is
not a closed POSIX shell word, and differs from the spec-modelled
quoting. -/
theorem formatShellCommand_quote_escape_bug :
    formatShellCommand "codex" ["--model", "space value", "mix" ++ sqs ++ "ed"] =
      "codex --model " ++ sqs ++ "space value" ++ sqs ++ " " ++ sqs ++ "mix" ++
        sqs ++ sqs ++ sqs ++ "ed" ++ sqs ∧
    quoteCount (quoteArg ("mix" ++ sqs ++ "ed")) = 5 ∧
    quoteArg ("mix" ++ sqs ++ "ed") ≠ specQuoteArg ("mix" ++ sqs ++ "ed") ∧
    specQuoteArg ("mix" ++ sqs ++ "ed") =
      sqs ++ "mix" ++ sqs ++ String.mk [Char.ofNat 92] ++ sqs ++ sqs ++ "ed" ++ sqs := by
  refine ⟨?_, ?_, ?_, ?_⟩ <;> decide

/-- C4: confirmed. loadConfig is total (never raises to its caller); an
absent config file yields the empty config with no warning, and any read
or parse failure yields the empty config after exactly one warn call whose
message contains the literal substring Failed to load .ai-switch.json and
the underlying error text. -/
theorem loadConfig_absent_and_failure :
    loadConfig ConfigSource.absent = (⟨none, none⟩, []) ∧
    ∀ msg : String, ∃ w : String,
      loadConfig (ConfigSource.failure msg) = (⟨none, none⟩, [w]) ∧
      hasSub w "Failed to load .ai-switch.json" = true ∧
      hasSub w msg = true := by
  refine ⟨rfl, fun msg => ⟨"Failed to load " ++ CONFIG_FILENAME ++ ": " ++ msg, rfl, ?_, ?_⟩⟩
  · unfold hasSub
    have e0 : (("Failed to load " ++ CONFIG_FILENAME) ++ ": ").data
        = "Failed to load .ai-switch.json".data ++ ": ".data := by decide
    have e : (("Failed to load " ++ CONFIG_FILENAME) ++ ": " ++ msg).data
        = "Failed to load .ai-switch.json".data ++ (": ".data ++ msg.data) := by
      rw [String.data_append, e0, List.append_assoc]
    rw [e]
    exact hasSubL_at _ _ []
  · unfold hasSub
    have e : (("Failed to load " ++ CONFIG_FILENAME) ++ ": " ++ msg).data
        = (("Failed to load " ++ CONFIG_FILENAME) ++ ": ").data ++ msg.data := by
      rw [String.data_append]
    rw [e]
    have hh := hasSubL_at msg.data [] (("Failed to load " ++ CONFIG_FILENAME) ++ ": ").data
    rwa [List.append_nil] at hh

/-- C7: confirmed. When no literal double-dash token occurs in argv,
passthroughArgs returns the empty sequence; otherwise it returns exactly
the tokens strictly after the first double-dash, in order, keeping any
later double-dash tokens verbatim. -/
theorem passthroughArgs_spec :
    (∀ argv : List String, ¬ "--" ∈ argv → passthroughArgs argv = []) ∧
    (∀ l r : List String, ¬ "--" ∈ l → passthroughArgs (l ++ "--" :: r) = r) :=
  ⟨passthroughArgs_no_delim, passthroughArgs_delim⟩

/-- witness for passthroughArgs_spec at concrete inputs. -/
theorem passthroughArgs_spec_witness :
    passthroughArgs ["node", "ai", "use", "codex"] = [] ∧
    passthroughArgs ["node", "ai", "use", "codex", "--", "--flag", "--", "literal"]
        = ["--flag", "--", "literal"] :=
  ⟨passthroughArgs_spec.1 ["node", "ai", "use", "codex"] (by decide),
   passthroughArgs_spec.2 ["node", "ai", "use", "codex"] ["--flag", "--", "literal"]
     (by decide)⟩

/-- C9: confirmed. selectYoloFlag returns the first entry of the fast-mode
flag list and returns nothing when that list is empty or absent. -/
theorem selectYoloFlag_spec :
    (∀ (tool : ToolDefinition) (flag : String) (rest : List String),
        tool.yoloFlags = some (flag :: rest) → selectYoloFlag tool = some flag) ∧
    (∀ tool : ToolDefinition, tool.yoloFlags = some [] ∨ tool.yoloFlags = none →
        selectYoloFlag tool = none) := by
  constructor
  · intro tool flag rest h
    simp [selectYoloFlag, h]
  · intro tool h
    rcases h with h | h <;> simp [selectYoloFlag, h]

/-- witness for selectYoloFlag_spec: the codex catalog entry yields its
first listed flag, and a tool with no flag list yields nothing. -/
theorem selectYoloFlag_spec_witness :
    selectYoloFlag TOOLS.codex = some "--yolo" ∧
    selectYoloFlag ⟨"example", "Example CLI", [], none⟩ = none :=
  ⟨selectYoloFlag_spec.1 TOOLS.codex "--yolo"
     ["--dangerously-bypass-approvals-and-sandbox"] rfl,
   selectYoloFlag_spec.2 ⟨"example", "Example CLI", [], none⟩ (Or.inr rfl)⟩

/-- C6: confirmed, for every environment in which the ambient WSL detection
is negative (the claim and its spec source place the WSL refinement below
this operation): getInstallerChoices keeps exactly the installers whose
platform list is absent, empty, or contains the given platform, in catalog
order, maps each to the label-colon-command display name paired with the
raw command, and appends exactly one terminal Cancel entry with the empty
command, even when the filtered list is empty. -/
theorem getInstallerChoices_nonwsl_spec (env : Env) (tool : ToolDefinition)
    (platform : String) (h : isWSL env = false) :
    getInstallerChoices env tool platform =
      (tool.installers.filter fun installer =>
          match installer.platforms with
          | none => true
          | some ps => ps.isEmpty || ps.contains platform).map
        (fun installer => ⟨installer.label ++ ": " ++ installer.cmd, installer.cmd⟩)
      ++ [CANCEL_CHOICE] :=
  choices_nonwsl env tool platform h

/-- witness for getInstallerChoices_nonwsl_spec: the codex entry on a plain
darwin environment keeps npm and brew and ends with Cancel. -/
theorem getInstallerChoices_nonwsl_spec_witness :
    isWSL ⟨"darwin", false, none⟩ = false ∧
    getInstallerChoices ⟨"darwin", false, none⟩ TOOLS.codex "darwin" =
      [⟨"npm: npm install -g @openai/codex", "npm install -g @openai/codex"⟩,
       ⟨"brew: brew install codex", "brew install codex"⟩,
       ⟨"Cancel", ""⟩] :=
  ⟨rfl,
   (getInstallerChoices_nonwsl_spec ⟨"darwin", false, none⟩ TOOLS.codex "darwin"
       rfl).trans (by decide)⟩

/-- C8 counterexample: with both inputs fixed (the codex tool and the
explicit platform darwin), a WSL-like ambient environment (process.platform
linux with WSL_DISTRO_NAME present) changes the result of
getInstallerChoices, because isInstallerSupported consults the ambient
isWSL detection inside this operation even when the platform argument was
supplied explicitly. -/
theorem getInstallerChoices_env_dependent :
    getInstallerChoices ⟨"linux", true, none⟩ TOOLS.codex "darwin" ≠
      getInstallerChoices ⟨"darwin", false, none⟩ TOOLS.codex "darwin" := by
  decide

/-- C8 (amended): getInstallerChoices is deterministic in its tool and
platform arguments across all ambient environments in which the WSL
detection is negative; under a WSL environment the installer filter
consults the ambient detection, so the operation is not a pure function of
its two explicit inputs alone. -/
theorem getInstallerChoices_env_independent (e1 e2 : Env) (tool : ToolDefinition)
    (platform : String) (h1 : isWSL e1 = false) (h2 : isWSL e2 = false) :
    getInstallerChoices e1 tool platform = getInstallerChoices e2 tool platform :=
  (choices_nonwsl e1 tool platform h1).trans (choices_nonwsl e2 tool platform h2).symm

/-- witness for getInstallerChoices_env_independent: a non-WSL linux
environment (whose /proc/version mentions no microsoft) and a darwin
environment give the same choices for codex with the explicit platform
darwin. -/
theorem getInstallerChoices_env_independent_witness :
    isWSL ⟨"linux", false, some "Linux version 6.8.0-generic"⟩ = false ∧
    isWSL ⟨"darwin", false, none⟩ = false ∧
    getInstallerChoices ⟨"linux", false, some "Linux version 6.8.0-generic"⟩
        TOOLS.codex "darwin"
      = getInstallerChoices ⟨"darwin", false, none⟩ TOOLS.codex "darwin" :=
  ⟨rfl, rfl,
   getInstallerChoices_env_independent ⟨"linux", false, some "Linux version 6.8.0-generic"⟩
     ⟨"darwin", false, none⟩ TOOLS.codex "darwin" rfl rfl⟩

/-- C5 counterexample: the empty string is a string defaultTool value that
fails normalization, yet loadConfig omits it with no warning at all,
because the warning guard tests JS truthiness of the raw string and the
empty string is falsy. -/
theorem loadConfig_empty_defaultTool_silent :
    normalizeToolKey (some "") = none ∧
    loadConfig (ConfigSource.parsed [("defaultTool", Json.str "")])
      = (⟨none, none⟩, []) :=
  ⟨rfl, rfl⟩

/-- C5 (amended): loadConfig accepts fields independently. A NON-EMPTY
string defaultTool that fails normalization is omitted with a warning
containing Ignoring unknown defaultTool and the value; an empty-string
defaultTool is omitted silently; a defaultFlags value that is not an array
of strings is omitted with the exact defaultFlags warning; a valid
defaultFlags array is copied verbatim; and each conclusion holds whatever
the other field contains, so one bad field never drops the other valid
field. -/
theorem loadConfig_field_independent (doc : List (String × Json)) :
    (∀ s : String, getField doc "defaultTool" = some (Json.str s) → s ≠ "" →
        normalizeToolKey (some s) = none →
        (loadConfig (ConfigSource.parsed doc)).1.defaultTool = none ∧
        ("Ignoring unknown defaultTool: " ++ s)
          ∈ (loadConfig (ConfigSource.parsed doc)).2) ∧
    (getField doc "defaultTool" = some (Json.str "") →
        (loadConfig (ConfigSource.parsed doc)).1.defaultTool = none ∧
        ∀ w ∈ (loadConfig (ConfigSource.parsed doc)).2,
          hasSub w "Ignoring unknown defaultTool" = false) ∧
    (∀ v : Json, getField doc "defaultFlags" = some v →
        (∀ ss : List String, v ≠ Json.arr (ss.map Json.str)) →
        (loadConfig (ConfigSource.parsed doc)).1.defaultFlags = none ∧
        "Ignoring defaultFlags because it is not an array of strings."
          ∈ (loadConfig (ConfigSource.parsed doc)).2) ∧
    (∀ ss : List String,
        getField doc "defaultFlags" = some (Json.arr (ss.map Json.str)) →
        (loadConfig (ConfigSource.parsed doc)).1.defaultFlags = some ss) ∧
    (∀ s k : String, getField doc "defaultTool" = some (Json.str s) →
        normalizeToolKey (some s) = some k →
        (loadConfig (ConfigSource.parsed doc)).1.defaultTool = some k) := by
  refine ⟨?_, ?_, ?_, ?_, ?_⟩
  · intro s hget hne hnorm
    have hmt : maybeToolOf doc = some s := by simp [maybeToolOf, hget]
    have hbe : (s == "") = false := beq_eq_false_iff_ne.mpr hne
    constructor
    · simp [loadConfig, loadConfigParsed, hmt, hnorm]
    · simp [loadConfig, loadConfigParsed, toolWarnsOf, hmt, hnorm, hbe]
  · intro hget
    have hmt : maybeToolOf doc = some "" := by simp [maybeToolOf, hget]
    have hnorm : normalizeToolKey (some ("" : String)) = none := rfl
    have htw : toolWarnsOf doc = [] := by simp [toolWarnsOf, hmt, hnorm]
    constructor
    · simp [loadConfig, loadConfigParsed, hmt, hnorm]
    · intro w hw
      simp only [loadConfig, loadConfigParsed, htw, List.nil_append] at hw
      cases hfl : flagsOf doc with
      | some fs => simp [flagsWarnsOf, hfl] at hw
      | none =>
        simp only [flagsWarnsOf, hfl] at hw
        cases hio : (getField doc "defaultFlags").isSome with
        | true =>
          simp [hio] at hw
          subst hw
          decide
        | false => simp [hio] at hw
  · intro v hget hnot
    have hfl : flagsOf doc = none := by
      unfold flagsOf
      rw [hget]
      cases v with
      | arr items =>
        cases ha : asStrings items with
        | none => simp [ensureStringArray, ha]
        | some ss =>
          exact absurd (congrArg Json.arr (asStrings_eq_some ha)) (hnot ss)
      | null => rfl
      | bool b => rfl
      | num n => rfl
      | str s => rfl
      | obj fields => rfl
    have hio : (getField doc "defaultFlags").isSome = true := by rw [hget]; rfl
    have hfw : flagsWarnsOf doc
        = ["Ignoring defaultFlags because it is not an array of strings."] := by
      simp [flagsWarnsOf, hfl, hio]
    constructor
    · simp [loadConfig, loadConfigParsed, hfl]
    · simp [loadConfig, loadConfigParsed, hfw]
  · intro ss hget
    have hfl : flagsOf doc = some ss := by
      unfold flagsOf
      rw [hget]
      simp [ensureStringArray, asStrings_map_str]
    simp [loadConfig, loadConfigParsed, hfl]
  · intro s k hget hnorm
    have hmt : maybeToolOf doc = some s := by simp [maybeToolOf, hget]
    simp [loadConfig, loadConfigParsed, hmt, hnorm]

/-- witness for loadConfig_field_independent: an unknown non-empty
defaultTool is dropped with its warning while the valid defaultFlags array
in the same document is kept verbatim. -/
theorem loadConfig_field_independent_witness :
    (loadConfig (ConfigSource.parsed [("defaultTool", Json.str "cursor"),
        ("defaultFlags", Json.arr [Json.str "--model"])])).1.defaultTool = none ∧
    ("Ignoring unknown defaultTool: " ++ "cursor")
        ∈ (loadConfig (ConfigSource.parsed [("defaultTool", Json.str "cursor"),
            ("defaultFlags", Json.arr [Json.str "--model"])])).2 ∧
    (loadConfig (ConfigSource.parsed [("defaultTool", Json.str "cursor"),
        ("defaultFlags", Json.arr [Json.str "--model"])])).1.defaultFlags
      = some ["--model"] :=
  ⟨((loadConfig_field_independent [("defaultTool", Json.str "cursor"),
       ("defaultFlags", Json.arr [Json.str "--model"])]).1 "cursor" rfl
       (by decide) rfl).1,
   ((loadConfig_field_independent [("defaultTool", Json.str "cursor"),
       ("defaultFlags", Json.arr [Json.str "--model"])]).1 "cursor" rfl
       (by decide) rfl).2,
   (loadConfig_field_independent [("defaultTool", Json.str "cursor"),
       ("defaultFlags", Json.arr [Json.str "--model"])]).2.2.2.1 ["--model"] rfl⟩

/-- C10: confirmed. A defaultTool field that is present but not a string is
omitted silently: the result has no defaultTool, no warning mentioning
defaultTool is emitted, and the whole result equals the one for the same
document with the defaultTool field removed, so defaultFlags processing
continues normally. -/
theorem loadConfig_nonstring_defaultTool (doc : List (String × Json)) (v : Json)
    (h1 : getField doc "defaultTool" = some v) (h2 : ∀ s : String, v ≠ Json.str s) :
    (loadConfig (ConfigSource.parsed doc)).1.defaultTool = none ∧
    (∀ w ∈ (loadConfig (ConfigSource.parsed doc)).2,
        hasSub w "Ignoring unknown defaultTool" = false) ∧
    loadConfig (ConfigSource.parsed doc)
      = loadConfig (ConfigSource.parsed (removeField doc "defaultTool")) := by
  have hmt : maybeToolOf doc = none := by
    unfold maybeToolOf
    rw [h1]
    cases v with
    | str s => exact absurd rfl (h2 s)
    | null => rfl
    | bool b => rfl
    | num n => rfl
    | arr items => rfl
    | obj fields => rfl
  have hmt2 : maybeToolOf (removeField doc "defaultTool") = none := by
    unfold maybeToolOf
    rw [getField_removeField_self]
  have hgf : getField (removeField doc "defaultTool") "defaultFlags"
      = getField doc "defaultFlags" :=
    getField_removeField_ne doc "defaultTool" "defaultFlags" (by decide)
  have hnn : normalizeToolKey none = none := rfl
  refine ⟨?_, ?_, ?_⟩
  · simp [loadConfig, loadConfigParsed, hmt, hnn]
  · intro w hw
    have htw : toolWarnsOf doc = [] := by simp [toolWarnsOf, hmt, hnn]
    simp only [loadConfig, loadConfigParsed, htw, List.nil_append] at hw
    cases hfl : flagsOf doc with
    | some fs => simp [flagsWarnsOf, hfl] at hw
    | none =>
      simp only [flagsWarnsOf, hfl] at hw
      cases hio : (getField doc "defaultFlags").isSome with
      | true =>
        simp [hio] at hw
        subst hw
        decide
      | false => simp [hio] at hw
  · simp [loadConfig, loadConfigParsed, toolWarnsOf, flagsOf, flagsWarnsOf,
      hmt, hmt2, hgf, hnn]

/-- witness for loadConfig_nonstring_defaultTool: a numeric defaultTool is
dropped silently while the defaultFlags array of the same document is
processed normally. -/
theorem loadConfig_nonstring_defaultTool_witness :
    (loadConfig (ConfigSource.parsed [("defaultTool", Json.num 5),
        ("defaultFlags", Json.arr [Json.str "x"])])).1.defaultTool = none ∧
    (∀ w ∈ (loadConfig (ConfigSource.parsed [("defaultTool", Json.num 5),
        ("defaultFlags", Json.arr [Json.str "x"])])).2,
        hasSub w "Ignoring unknown defaultTool" = false) ∧
    loadConfig (ConfigSource.parsed [("defaultTool", Json.num 5),
        ("defaultFlags", Json.arr [Json.str "x"])])
      = loadConfig (ConfigSource.parsed (removeField [("defaultTool", Json.num 5),
        ("defaultFlags", Json.arr [Json.str "x"])] "defaultTool")) :=
  loadConfig_nonstring_defaultTool _ (Json.num 5) rfl (fun _ h => Json.noConfusion h)
